import Mathlib

/-!
Verification development for the loggy structured-logging composition layer:
a shallow embedding of the fan-out `CombinedHandler` (combined_handler.go),
the level sniffer `checkLevel` (console.go), the colorizing
`ConsoleLogWriter.Write` and the `NewConsoleLogHandler` factory, together
with theorems settling the spec's claims about them.
-/

namespace Loggy

/-- Log severity level, as in log/slog: a plain integer with
DEBUG = -4, INFO = 0, WARN = 4, ERROR = 8. -/
abbrev Level := Int

def LevelDebug : Level := -4

def LevelInfo : Level := 0

def LevelWarn : Level := 4

def LevelError : Level := 8

/-- Go fmt %+d formatting of an integer: an explicit sign is always printed. -/
def plusFormat (v : Int) : String :=
  if v < 0 then toString v else "+" ++ toString v

/-- The inner helper of slog's Level.String: the base name, with the offset
appended in %+d form when it is nonzero. -/
def levelStr (base : String) (val : Int) : String :=
  if val = 0 then base else base ++ plusFormat val

/-- slog's Level.String: the name of the nearest lower standard level with the
signed offset from it (e.g. 5 renders as WARN+1). -/
def levelString (l : Level) : String :=
  if l < LevelInfo then levelStr ("DEBUG") (l - LevelDebug)
  else if l < LevelWarn then levelStr ("INFO") (l - LevelInfo)
  else if l < LevelError then levelStr ("WARN") (l - LevelWarn)
  else levelStr ("ERROR") (l - LevelError)

/-- Does the character list `s` start with the pattern `pat`? -/
def strStartsWith : List Char → List Char → Bool
  | _, [] => true
  | [], _ :: _ => false
  | c :: cs, d :: ds => (c == d) && strStartsWith cs ds

/-- Does the character list contain `pat` as a contiguous sublist?
Mirrors Go strings.Contains. -/
def strFindSub (pat : List Char) : List Char → Bool
  | [] => pat.isEmpty
  | c :: cs => strStartsWith (c :: cs) pat || strFindSub pat cs

/-- Go strings.Contains(s, sub). -/
def stringContains (s sub : String) : Bool :=
  strFindSub sub.data s.data

/-- The text-format level marker checkLevel searches for:
fmt.Sprintf("level=%s", level.String()). -/
def textMarker (l : Level) : String := "level=" ++ levelString l

/-- The JSON-format level marker checkLevel searches for:
fmt.Sprintf("\x22level\x22:\x22%s\x22", level.String()). -/
def jsonMarker (l : Level) : String :=
  "\"level\":\"" ++ levelString l ++ "\""

/-- checkLevel from console.go: a pure substring search for either the text
or the JSON level marker in the rendered line. -/
def checkLevel (log : String) (level : Level) : Bool :=
  stringContains log (textMarker level) || stringContains log (jsonMarker level)

/-- The spec's plain-text marker `level=LEVELNAME`, built from the level's
spec-side textual name. -/
def specTextMarker (nm : String) : String := "level=" ++ nm

/-- The spec's JSON marker `"level":"LEVELNAME"`, built from the level's
spec-side textual name. -/
def specJsonMarker (nm : String) : String :=
  "\"level\":\"" ++ nm ++ "\""

/-- An output stream (io.Writer): writing a string yields the number of bytes
written and an optional error. -/
structure OutStream where
  write : String → Nat × Option String

/-- ConsoleLogWriter from console.go: holds the underlying output stream. -/
structure ConsoleLogWriter where
  outputStream : OutStream

/-- fatih/color foreground red. -/
def fgRed : Nat := 31

/-- fatih/color foreground yellow. -/
def fgYellow : Nat := 33

/-- fatih/color foreground blue. -/
def fgBlue : Nat := 34

/-- The ANSI escape sequence for one SGR code. -/
def escSeq (code : Nat) : String := "\x1b[" ++ toString code ++ "m"

/-- fatih/color's wrapping of a string in a color escape and the reset escape:
what color.New(code).Fprint writes to the stream. -/
def colorWrap (code : Nat) (s : String) : String :=
  escSeq code ++ s ++ escSeq 0

/-- ConsoleLogWriter.Write from console.go: classify the line by checkLevel,
Error first, then Warning, then Info; write the color-wrapped line on the
first match, the raw bytes when none matches, returning the underlying
stream's result. -/
def ConsoleLogWriter.Write (w : ConsoleLogWriter) (p : String) : Nat × Option String :=
  let log := p
  if checkLevel log LevelError then w.outputStream.write (colorWrap fgRed log)
  else if checkLevel log LevelWarn then w.outputStream.write (colorWrap fgYellow log)
  else if checkLevel log LevelInfo then w.outputStream.write (colorWrap fgBlue log)
  else w.outputStream.write log

/-- slog.HandlerOptions, passed through opaquely by this package. -/
structure HandlerOptions where
  addSource : Bool
  level : Level

/-- The Go zero value of slog.HandlerOptions. -/
def zeroHandlerOptions : HandlerOptions := ⟨false, 0⟩

/-- ConsoleLogWriterOpts from console.go. -/
structure ConsoleLogWriterOpts where
  JSON : Bool
  LogToStdout : Bool
  handlerOptions : HandlerOptions

/-- The Go zero value of ConsoleLogWriterOpts. -/
def zeroConsoleLogWriterOpts : ConsoleLogWriterOpts :=
  ⟨false, false, zeroHandlerOptions⟩

/-- The handler returned by NewConsoleLogHandler: a JSON or a text slog
handler over a ConsoleLogWriter, holding the handler options it was built
with. -/
inductive SlogHandler where
  | jsonHandler (writer : ConsoleLogWriter) (opts : HandlerOptions)
  | textHandler (writer : ConsoleLogWriter) (opts : HandlerOptions)

/-- Whether the returned handler is the JSON one. -/
def SlogHandler.isJSON : SlogHandler → Bool
  | .jsonHandler _ _ => true
  | .textHandler _ _ => false

/-- The ConsoleLogWriter the returned handler writes through. -/
def SlogHandler.writer : SlogHandler → ConsoleLogWriter
  | .jsonHandler w _ => w
  | .textHandler w _ => w

/-- The handler options the returned handler was constructed with. -/
def SlogHandler.handlerOpts : SlogHandler → HandlerOptions
  | .jsonHandler _ o => o
  | .textHandler _ o => o

/-- NewConsoleLogHandler from console.go. The variadic options parameter is a
list; os.Stdout and os.Stderr are passed explicitly as the ambient streams.
Uses the first options value when present and the zero value otherwise,
selects stdout when LogToStdout and stderr otherwise, wraps the stream in a
ConsoleLogWriter, and builds a JSON handler when JSON and a text handler
otherwise, passing HandlerOptions through. -/
def NewConsoleLogHandler (osStdout osStderr : OutStream)
    (options : List ConsoleLogWriterOpts) : SlogHandler :=
  let opts := match options with
    | [] => zeroConsoleLogWriterOpts
    | o :: _ => o
  let outputStream := if opts.LogToStdout then osStdout else osStderr
  let writer : ConsoleLogWriter := ⟨outputStream⟩
  if opts.JSON then SlogHandler.jsonHandler writer opts.handlerOptions
  else SlogHandler.textHandler writer opts.handlerOptions

/-- context.Context, carrying opaque values. -/
structure Context where
  vals : List (String × String)

/-- A slog.Record: the fields the fan-out handler consults (level), plus the
message it forwards opaquely. -/
structure Record where
  level : Level
  msg : String

/-- An attribute (slog.Attr), opaque to the fan-out handler. -/
structure Attr where
  key : String
  value : String

/-- One derivation step applied to a child handler: WithAttrs or WithGroup. -/
inductive HandlerOp where
  | attrsOp (attrs : List Attr)
  | groupOp (name : String)

/-- A child slog.Handler: an opaque interface value, modelled by its base
behavior as a function of the sequence of With-derivation steps applied so
far, together with that recorded sequence. -/
structure Handler where
  baseEnabled : List HandlerOp → Context → Level → Bool
  baseHandle : List HandlerOp → Context → Record → Option String
  ops : List HandlerOp

/-- The interface's Enabled call on a child handler. -/
def Handler.Enabled (h : Handler) (ctx : Context) (l : Level) : Bool :=
  h.baseEnabled h.ops ctx l

/-- The interface's Handle call on a child handler; a some result is the Go
non-nil error. -/
def Handler.Handle (h : Handler) (ctx : Context) (r : Record) : Option String :=
  h.baseHandle h.ops ctx r

/-- The interface's WithAttrs call on a child handler: records the step. -/
def Handler.WithAttrs (h : Handler) (attrs : List Attr) : Handler :=
  ⟨h.baseEnabled, h.baseHandle, h.ops ++ [HandlerOp.attrsOp attrs]⟩

/-- The interface's WithGroup call on a child handler: records the step. -/
def Handler.WithGroup (h : Handler) (name : String) : Handler :=
  ⟨h.baseEnabled, h.baseHandle, h.ops ++ [HandlerOp.groupOp name]⟩

/-- CombinedHandler from combined_handler.go: an ordered sequence of child
handlers. -/
structure CombinedHandler where
  handlers : List Handler

/-- The loop body of CombinedHandler.Enabled: return true at the first child
enabled for the level, false when the list is exhausted. -/
def enabledLoop (ctx : Context) (level : Level) : List Handler → Bool
  | [] => false
  | handler :: rest =>
    if Handler.Enabled handler ctx level then true else enabledLoop ctx level rest

/-- CombinedHandler.Enabled from combined_handler.go. -/
def CombinedHandler.Enabled (h : CombinedHandler) (ctx : Context) (level : Level) : Bool :=
  enabledLoop ctx level h.handlers

/-- The loop body of CombinedHandler.Handle: skip children not enabled for the
record's level; call Handle on enabled ones, returning the first non-nil
error; return nil after the last child. -/
def handleLoop (ctx : Context) (record : Record) : List Handler → Option String
  | [] => none
  | handler :: rest =>
    if Handler.Enabled handler ctx record.level then
      match Handler.Handle handler ctx record with
      | some err => some err
      | none => handleLoop ctx record rest
    else handleLoop ctx record rest

/-- CombinedHandler.Handle from combined_handler.go. -/
def CombinedHandler.Handle (h : CombinedHandler) (ctx : Context) (record : Record) : Option String :=
  handleLoop ctx record h.handlers

/-- CombinedHandler.WithAttrs from combined_handler.go: the receiver when
attrs is empty, else a new CombinedHandler with WithAttrs applied to every
child in order. -/
def CombinedHandler.WithAttrs (h : CombinedHandler) (attrs : List Attr) : CombinedHandler :=
  if attrs.length = 0 then h
  else ⟨h.handlers.map (fun handler => Handler.WithAttrs handler attrs)⟩

/-- CombinedHandler.WithGroup from combined_handler.go: the receiver when the
name is empty, else a new CombinedHandler with WithGroup applied to every
child in order. -/
def CombinedHandler.WithGroup (h : CombinedHandler) (name : String) : CombinedHandler :=
  if name = "" then h
  else ⟨h.handlers.map (fun handler => Handler.WithGroup handler name)⟩

/-- NewCombinedHandler from combined_handler.go: wraps the given child
handlers, in order. -/
def NewCombinedHandler (handlers : List Handler) : CombinedHandler :=
  ⟨handlers⟩

/-- Concrete context for witnesses. -/
def ctx0 : Context := ⟨[]⟩

/-- Concrete record for witnesses: an Info-level message. -/
def rec0 : Record := ⟨LevelInfo, "msg"⟩

/-- Concrete attribute for witnesses. -/
def attr0 : Attr := ⟨"k", "v"⟩

/-- Concrete group name for witnesses. -/
def gname : String := "g"

/-- A child handler enabled at and above a fixed threshold, always handling
without error. -/
def thresholdHandler (threshold : Level) : Handler :=
  ⟨fun _ _ l => decide (threshold ≤ l), fun _ _ _ => none, []⟩

/-- A child handler that is always enabled and always fails with the given
error. -/
def failingHandler (e : String) : Handler :=
  ⟨fun _ _ _ => true, fun _ _ _ => some e, []⟩

/-- An observing stream for witnesses: reports the written string back in its
result, so the payload a write receives is visible. -/
def echoStream : OutStream := ⟨fun s => (s.length, some s)⟩

/-- A ConsoleLogWriter over the observing stream. -/
def echoWriter : ConsoleLogWriter := ⟨echoStream⟩

/-- A rendered text-format line at the custom level WARN+1. -/
def lineW1 : String := "level=WARN+1 msg=hi\n"

/-- The custom level WARN+1. -/
def levelW1 : Level := 5

/-- A rendered text-format Debug line. -/
def lineD : String := "level=DEBUG msg=hi\n"

/-- A rendered text-format Error line. -/
def lineE : String := "level=ERROR msg=a"

/-- A rendered text-format Warning line. -/
def lineW : String := "level=WARN msg=a"

/-- A rendered text-format Info line. -/
def lineI : String := "level=INFO msg=a"

/-- A line carrying no level marker at all. -/
def lineN : String := "msg=hi\n"

/-- The spec-side textual name of the Debug level. -/
def dbgName : String := "DEBUG"

/-- The spec-side textual name of the Info level. -/
def infoName : String := "INFO"

/-- The spec-side textual name of the Warning level. -/
def warnName : String := "WARN"

/-- The spec-side textual name of the Error level. -/
def errName : String := "ERROR"

/-- The Enabled loop is the short-circuit disjunction over the children. -/
theorem enabledLoop_eq_any (ctx : Context) (level : Level) (hs : List Handler) :
    enabledLoop ctx level hs = hs.any (fun c => Handler.Enabled c ctx level) := by
  induction hs with
  | nil => rfl
  | cons c rest ih =>
    by_cases hc : Handler.Enabled c ctx level <;> simp [enabledLoop, hc, ih]

/-- Claim C1: Handle iterates children in construction order; a child whose
Enabled is false for the record's level is skipped (the result does not
depend on it); on the first enabled child whose Handle fails, that error is
returned no matter what the later children are; an enabled child that
succeeds passes control to the rest; and when no enabled child errors the
result is nil. -/
theorem combinedHandle_failFast (ctx : Context) (record : Record) :
    CombinedHandler.Handle ⟨[]⟩ ctx record = none ∧
    (∀ (c : Handler) (rest : List Handler),
      Handler.Enabled c ctx record.level = false →
        CombinedHandler.Handle ⟨c :: rest⟩ ctx record
          = CombinedHandler.Handle ⟨rest⟩ ctx record) ∧
    (∀ (c : Handler) (rest : List Handler) (e : String),
      Handler.Enabled c ctx record.level = true →
      Handler.Handle c ctx record = some e →
        CombinedHandler.Handle ⟨c :: rest⟩ ctx record = some e) ∧
    (∀ (c : Handler) (rest : List Handler),
      Handler.Enabled c ctx record.level = true →
      Handler.Handle c ctx record = none →
        CombinedHandler.Handle ⟨c :: rest⟩ ctx record
          = CombinedHandler.Handle ⟨rest⟩ ctx record) ∧
    (∀ hs : List Handler,
      (∀ c ∈ hs, Handler.Enabled c ctx record.level = true →
        Handler.Handle c ctx record = none) →
        CombinedHandler.Handle ⟨hs⟩ ctx record = none) := by
  refine ⟨rfl, ?_, ?_, ?_, ?_⟩
  · intro c rest h
    simp [CombinedHandler.Handle, handleLoop, h]
  · intro c rest e h1 h2
    simp [CombinedHandler.Handle, handleLoop, h1, h2]
  · intro c rest h1 h2
    simp [CombinedHandler.Handle, handleLoop, h1, h2]
  · intro hs
    induction hs with
    | nil => intro _; rfl
    | cons c rest ih =>
      intro h
      have hr : CombinedHandler.Handle ⟨rest⟩ ctx record = none :=
        ih (fun d hd hde => h d (List.mem_cons_of_mem _ hd) hde)
      by_cases hc : Handler.Enabled c ctx record.level = true
      · have hn := h c (List.mem_cons_self _ _) hc
        simpa [CombinedHandler.Handle, handleLoop, hc, hn] using hr
      · simp only [Bool.not_eq_true] at hc
        simpa [CombinedHandler.Handle, handleLoop, hc] using hr

/-- Claim C4: the fan-out Enabled is true iff some child is enabled for the
level; the first enabled child settles it regardless of the rest, and a
disabled head child defers to the rest, in order. -/
theorem combinedEnabled_or (ctx : Context) (level : Level) :
    (∀ h : CombinedHandler,
      CombinedHandler.Enabled h ctx level = true ↔
        ∃ c ∈ h.handlers, Handler.Enabled c ctx level = true) ∧
    (∀ (c : Handler) (rest : List Handler),
      Handler.Enabled c ctx level = true →
        CombinedHandler.Enabled ⟨c :: rest⟩ ctx level = true) ∧
    (∀ (c : Handler) (rest : List Handler),
      Handler.Enabled c ctx level = false →
        CombinedHandler.Enabled ⟨c :: rest⟩ ctx level
          = CombinedHandler.Enabled ⟨rest⟩ ctx level) := by
  refine ⟨?_, ?_, ?_⟩
  · intro h
    simp [CombinedHandler.Enabled, enabledLoop_eq_any, List.any_eq_true]
  · intro c rest h
    simp [CombinedHandler.Enabled, enabledLoop, h]
  · intro c rest h
    simp [CombinedHandler.Enabled, enabledLoop, h]

/-- Claim C7: WithAttrs on an empty attribute list and WithGroup on the empty
name both return the receiver itself. -/
theorem combined_with_empty_identity (h : CombinedHandler) :
    CombinedHandler.WithAttrs h [] = h ∧ CombinedHandler.WithGroup h ("") = h :=
  ⟨rfl, rfl⟩

/-- Claim C6: with a non-empty attribute list (resp. non-empty group name),
WithAttrs (resp. WithGroup) builds a handler whose children are exactly the
receiver's children, in order, each with the operation applied. -/
theorem combined_withAttrs_withGroup_map (h : CombinedHandler) (attrs : List Attr)
    (g : String) (ha : attrs ≠ []) (hg : g ≠ ("")) :
    (CombinedHandler.WithAttrs h attrs).handlers
        = h.handlers.map (fun c => Handler.WithAttrs c attrs) ∧
    (CombinedHandler.WithGroup h g).handlers
        = h.handlers.map (fun c => Handler.WithGroup c g) := by
  constructor
  · have hlen : ¬ attrs.length = 0 := by simpa using ha
    simp [CombinedHandler.WithAttrs, hlen]
  · simp [CombinedHandler.WithGroup, hg]

/-- Witness for claim C6 at a one-child fan-out handler with a concrete
attribute and a concrete group name. -/
theorem combined_withAttrs_withGroup_map_witness :
    (CombinedHandler.WithAttrs ⟨[thresholdHandler LevelWarn]⟩ [attr0]).handlers
        = ([thresholdHandler LevelWarn]).map (fun c => Handler.WithAttrs c [attr0]) ∧
    (CombinedHandler.WithGroup ⟨[thresholdHandler LevelWarn]⟩ gname).handlers
        = ([thresholdHandler LevelWarn]).map (fun c => Handler.WithGroup c gname) :=
  combined_withAttrs_withGroup_map ⟨[thresholdHandler LevelWarn]⟩ [attr0] gname
    (by simp) (by decide)

/-- Claim C9: the fan-out handler over no children reports disabled for every
context and level, and handles every record with a nil result. -/
theorem emptyCombined_noop (ctx : Context) (level : Level) (record : Record) :
    CombinedHandler.Enabled (NewCombinedHandler []) ctx level = false ∧
    CombinedHandler.Handle (NewCombinedHandler []) ctx record = none :=
  ⟨rfl, rfl⟩

/-- Claim C2: Write classifies the line by checkLevel testing Error, then
Warning, then Info; the first match sends the line wrapped in the matching
ANSI foreground color (red, yellow, blue) to the underlying stream,
returning that write's count and error; with no match the raw bytes go to
the stream unmodified. -/
theorem consoleWrite_colorPriority (w : ConsoleLogWriter) (p : String) :
    (checkLevel p LevelError = true →
      ConsoleLogWriter.Write w p = w.outputStream.write (colorWrap fgRed p)) ∧
    (checkLevel p LevelError = false → checkLevel p LevelWarn = true →
      ConsoleLogWriter.Write w p = w.outputStream.write (colorWrap fgYellow p)) ∧
    (checkLevel p LevelError = false → checkLevel p LevelWarn = false →
      checkLevel p LevelInfo = true →
      ConsoleLogWriter.Write w p = w.outputStream.write (colorWrap fgBlue p)) ∧
    (checkLevel p LevelError = false → checkLevel p LevelWarn = false →
      checkLevel p LevelInfo = false →
      ConsoleLogWriter.Write w p = w.outputStream.write p) := by
  refine ⟨?_, ?_, ?_, ?_⟩ <;> intros <;> simp_all [ConsoleLogWriter.Write]

/-- Claim C3: for each of the four standard severities with its textual name
(DEBUG, INFO, WARN, ERROR), checkLevel is exactly the substring search for
the text marker level=NAME or the JSON marker "level":"NAME". -/
theorem checkLevel_iff_marker (line : String) (l : Level) (nm : String)
    (h : (l = LevelDebug ∧ nm = dbgName) ∨ (l = LevelInfo ∧ nm = infoName) ∨
         (l = LevelWarn ∧ nm = warnName) ∨ (l = LevelError ∧ nm = errName)) :
    checkLevel line l
      = (stringContains line (specTextMarker nm)
          || stringContains line (specJsonMarker nm)) := by
  rcases h with ⟨hl, hn⟩ | ⟨hl, hn⟩ | ⟨hl, hn⟩ | ⟨hl, hn⟩ <;> subst hl <;> subst hn <;> rfl

/-- Witness for claim C3 at the Error level on a concrete rendered line. -/
theorem checkLevel_iff_marker_witness :
    checkLevel lineE LevelError
      = (stringContains lineE (specTextMarker errName)
          || stringContains lineE (specJsonMarker errName)) :=
  checkLevel_iff_marker lineE LevelError errName (Or.inr (Or.inr (Or.inr ⟨rfl, rfl⟩)))

/-- Counterexample to claim C5: the rendered line of the custom level WARN+1
(level 5) is not at the Error, Warning or Info level, yet Write colorizes
it — its text marker level=WARN+1 contains level=WARN as a substring, so
the stream receives the yellow-wrapped line, not the raw bytes. -/
theorem consoleWrite_customLevel_cex :
    checkLevel lineW1 levelW1 = true ∧
    levelW1 ≠ LevelError ∧ levelW1 ≠ LevelWarn ∧ levelW1 ≠ LevelInfo ∧
    ConsoleLogWriter.Write echoWriter lineW1
        = echoStream.write (colorWrap fgYellow lineW1) ∧
    ConsoleLogWriter.Write echoWriter lineW1 ≠ echoStream.write lineW1 := by
  decide

/-- Claim C5 as amended: whenever all three colorable checks fail on the
input — in particular on rendered Debug lines and on any line carrying no
colorable marker as a substring — Write passes the bytes to the underlying
stream unmodified, with no ANSI wrapping. -/
theorem consoleWrite_noMatch_raw (w : ConsoleLogWriter) (p : String)
    (hE : checkLevel p LevelError = false) (hW : checkLevel p LevelWarn = false)
    (hI : checkLevel p LevelInfo = false) :
    ConsoleLogWriter.Write w p = w.outputStream.write p := by
  simp [ConsoleLogWriter.Write, hE, hW, hI]

/-- Witness for the amended claim C5 on a concrete rendered Debug line. -/
theorem consoleWrite_noMatch_raw_witness :
    ConsoleLogWriter.Write echoWriter lineD = echoStream.write lineD :=
  consoleWrite_noMatch_raw echoWriter lineD (by decide) (by decide) (by decide)

/-- Claim C8: with one options value, NewConsoleLogHandler writes through a
ConsoleLogWriter over stdout exactly when LogToStdout (stderr otherwise),
is the JSON handler exactly when JSON (text otherwise), and carries the
given HandlerOptions through unchanged. -/
theorem newConsoleLogHandler_wiring (osStdout osStderr : OutStream)
    (o : ConsoleLogWriterOpts) :
    SlogHandler.writer (NewConsoleLogHandler osStdout osStderr [o])
        = ⟨if o.LogToStdout then osStdout else osStderr⟩ ∧
    SlogHandler.isJSON (NewConsoleLogHandler osStdout osStderr [o]) = o.JSON ∧
    SlogHandler.handlerOpts (NewConsoleLogHandler osStdout osStderr [o])
        = o.handlerOptions := by
  rcases o with ⟨j, ts, ho⟩
  cases j <;> cases ts <;>
    simp [NewConsoleLogHandler, SlogHandler.writer, SlogHandler.isJSON,
      SlogHandler.handlerOpts]

/-- Claim C10: called with no options, NewConsoleLogHandler behaves as with
the zero-value options — a text handler over stderr; with several options
values only the first is used and the rest are ignored. -/
theorem newConsoleLogHandler_variadic (osStdout osStderr : OutStream) :
    NewConsoleLogHandler osStdout osStderr []
        = NewConsoleLogHandler osStdout osStderr [zeroConsoleLogWriterOpts] ∧
    (∀ (o : ConsoleLogWriterOpts) (rest : List ConsoleLogWriterOpts),
      NewConsoleLogHandler osStdout osStderr (o :: rest)
          = NewConsoleLogHandler osStdout osStderr [o]) ∧
    SlogHandler.isJSON (NewConsoleLogHandler osStdout osStderr []) = false ∧
    SlogHandler.writer (NewConsoleLogHandler osStdout osStderr []) = ⟨osStderr⟩ := by
  exact ⟨rfl, fun o rest => rfl, rfl, rfl⟩

end Loggy
